import Mathlib

/-!
Shallow embedding of `src/fame_transcription.py`: the streaming
transcription pipeline (rolling audio window, PCM conversion, change
gate, and the recording / finalizing orchestration of `main`).

Floats are modelled as exact rationals: every value produced here is
an int16 divided by the power of two 32768, which float32 represents
exactly. The opaque collaborators (`resampy.resample` and
`model.transcribe`) are passed in as function parameters; the decode
oracle returns the already-joined-and-stripped text of the segments,
and `Except.error` models a raised exception.
-/

namespace FrameTranscription

/-- Config constant `RATE_IN = 8000` (source line 12). -/
def RATE_IN : Nat := 8000

/-- Config constant `RATE_OUT = 16000` (source line 13). -/
def RATE_OUT : Nat := 16000

/-- Config constant `CONTEXT_SEC = 25` (source line 14). -/
def CONTEXT_SEC : Nat := 25

/-- `max_samples = CONTEXT_SEC * RATE_OUT` (source line 202). -/
def max_samples : Nat := CONTEXT_SEC * RATE_OUT

/-- Decode one little-endian int16 from two bytes, as
`np.frombuffer(pcm, dtype=np.int16)` does on a little-endian host. -/
def bytesToInt16 (lo hi : Nat) : Int :=
  let v : Int := (lo : Int) + 256 * (hi : Int)
  if v < 32768 then v else v - 65536

/-- `pcm16_to_f32` (source lines 17-18): reinterpret the byte string as
int16 samples and divide by 32768.0. Bytes are paired little-endian;
`np.frombuffer` requires an even number of bytes, so a trailing odd
byte never occurs on real input and is ignored here. -/
def pcm16_to_f32 : List Nat → List Rat
  | lo :: hi :: rest => (bytesToInt16 lo hi : Rat) / 32768 :: pcm16_to_f32 rest
  | _ => []

/-- The rolling-window append-and-trim step (source lines 223-225):
`buf = concatenate([buf, up]); if buf.size > max_samples: buf = buf[-max_samples:]`.
`buf[-k:]` with `k ≤ buf.size` keeps the last `k` elements, i.e. drops
`buf.size - k` from the front. -/
def appendTrim {α : Type} (w up : List α) : List α :=
  let w2 := w ++ up
  if max_samples < w2.length then w2.drop (w2.length - max_samples) else w2

/-- The change gate (source line 238): `if text and text != last_terminal`.
A Python string is truthy exactly when it is non-empty. -/
def should_emit (new_text last_text : String) : Bool :=
  (!(new_text == "")) && (!(new_text == last_text))

/-- Outbound / observable actions of `main`, in the order performed.
`ctrl v` is `frame.send_message(0x30, TxCode(value=v).pack())`;
`txt s` is `frame.send_message(0x31, s.encode())`;
`decodeCall w` records an invocation of `model.transcribe(w, ...)`;
the remaining four are the cleanup steps of the outer `finally`
(source lines 292-300). -/
inductive Act where
  | ctrl (v : Nat)
  | txt (s : String)
  | decodeCall (w : List Rat)
  | detachRx
  | detachPrint
  | stopApp
  | disconnect
deriving DecidableEq, Repr

/-- Mutable session state of the recording loop: `buf_pcm8k` (raw bytes),
`buf_pcm16k` (the rolling window of converted samples) and
`last_terminal` (source lines 173-175). -/
structure SessionSt where
  buf8 : List Nat
  win : List Rat
  last_terminal : String
deriving DecidableEq, Repr

/-- The state at the start of a recording phase (source lines 183-185):
buffers cleared and `last_terminal = ""`. -/
def initSt : SessionSt := ⟨[], [], ""⟩

/-- One iteration of the inner recording loop (source lines 205-248):
`timeout` is the `asyncio.TimeoutError` branch, `streamEnd` is
`pkt is None`, and `pkt bytes tick` is the receipt of a chunk, with
`tick` recording whether `time.time() - last_t >= STEP_SEC` held. -/
inductive RecEvent where
  | timeout
  | streamEnd
  | pkt (bytes : List Nat) (tick : Bool)

/-- One loop iteration after receiving a packet (source lines 211-244):
buffer the chunk; if a step tick is due, convert the whole raw buffer,
clear it, skip the rest when the converted block is empty, otherwise
resample, append-and-trim into the window, decode, and run the change
gate. Returns the actions performed and either the next state or an
error when the decode raised. -/
def recStep (resample : List Rat → List Rat)
    (decode : List Rat → Except Unit String)
    (st : SessionSt) (bytes : List Nat) (tick : Bool) :
    List Act × Except Unit SessionSt :=
  let buf1 := st.buf8 ++ bytes
  if tick then
    let pcm := pcm16_to_f32 buf1
    if pcm.isEmpty then
      ([], Except.ok ⟨[], st.win, st.last_terminal⟩)
    else
      let w := appendTrim st.win (resample pcm)
      match decode w with
      | Except.error e => ([Act.decodeCall w], Except.error e)
      | Except.ok text =>
        if should_emit text st.last_terminal then
          ([Act.decodeCall w, Act.txt text], Except.ok ⟨[], w, text⟩)
        else
          ([Act.decodeCall w], Except.ok ⟨[], w, st.last_terminal⟩)
  else
    ([], Except.ok ⟨buf1, st.win, st.last_terminal⟩)

/-- The recording loop (source lines 205-248) over a finite schedule of
events. An empty schedule is the stop event firing; `streamEnd`
breaks out of the loop discarding the rest of the schedule; a raised
decode error aborts the loop with the trace so far. -/
def recLoop (resample : List Rat → List Rat)
    (decode : List Rat → Except Unit String) :
    SessionSt → List RecEvent → List Act × Except Unit SessionSt
  | st, [] => ([], Except.ok st)
  | st, RecEvent.timeout :: es => recLoop resample decode st es
  | st, RecEvent.streamEnd :: _ => ([], Except.ok st)
  | st, RecEvent.pkt bytes tick :: es =>
    match recStep resample decode st bytes tick with
    | (tr, Except.error e) => (tr, Except.error e)
    | (tr, Except.ok st2) =>
      let rest := recLoop resample decode st2 es
      (tr ++ rest.1, rest.2)

/-- The finalizing phase (source lines 259-282): send the audio-stop
control `0x30/0`; then, only when the window holds samples, send the
"processing" status, run the final decode, and emit its text, or the
literal fallback when the stripped text is empty. -/
def finalizeActs (decode : List Rat → Except Unit String)
    (st : SessionSt) : List Act × Except Unit Unit :=
  if st.win.isEmpty then
    ([Act.ctrl 0], Except.ok ())
  else
    match decode st.win with
    | Except.error e =>
      ([Act.ctrl 0, Act.txt "Processing final transcription...",
        Act.decodeCall st.win], Except.error e)
    | Except.ok t =>
      ([Act.ctrl 0, Act.txt "Processing final transcription...",
        Act.decodeCall st.win,
        if t = "" then Act.txt "No speech detected." else Act.txt t],
       Except.ok ())

/-- Actions when a recording phase starts (source lines 189-192):
the `0x30/1` recording-on control and the initial status message. -/
def startActs : List Act := [Act.ctrl 1, Act.txt "Listening..."]

/-- The outer `finally` cleanup (source lines 292-300): detach the audio
receiver, detach the print handler, stop the device app, disconnect. -/
def cleanupActs : List Act :=
  [Act.detachRx, Act.detachPrint, Act.stopApp, Act.disconnect]

/-- What runs after the recording loop ends normally: the finalizing
phase, followed by the outer cleanup only when finalizing itself
raised (a successful pass loops back to the prompt instead). -/
def finalizePart (decode : List Rat → Except Unit String)
    (st : SessionSt) : List Act :=
  let f := finalizeActs decode st
  f.1 ++ (match f.2 with
    | Except.ok _ => []
    | Except.error _ => cleanupActs)

/-- One full session pass of `main` (source lines 178-300): start
actions, the recording loop, then either the finalizing phase (normal
exit) or — when an exception escaped the loop — the outer `except` /
`finally` cleanup, which skips lines 259-284 entirely. -/
def sessionRun (resample : List Rat → List Rat)
    (decode : List Rat → Except Unit String)
    (evs : List RecEvent) : List Act :=
  match recLoop resample decode initSt evs with
  | (tr, Except.error _) => startActs ++ tr ++ cleanupActs
  | (tr, Except.ok st) => startActs ++ tr ++ finalizePart decode st

/-- A resampler stand-in with the exact length behavior of
`resampy.resample(x, 8000, 16000)` (output length `2 * n`); sample
values are not modelled, only used to instantiate witnesses. -/
def rDup : List Rat → List Rat := fun l => l ++ l

/-- Decode oracle that always returns the fixed hypothesis "hello". -/
def dHello : List Rat → Except Unit String := fun _ => Except.ok "hello"

/-- Decode oracle that always returns the empty (stripped) hypothesis. -/
def dEmpty : List Rat → Except Unit String := fun _ => Except.ok ""

/-- Decode oracle that always raises. -/
def dErr : List Rat → Except Unit String := fun _ => Except.error ()

/-- A window one step below capacity, for exercising the trim boundary. -/
def wNearCap : List Rat := List.replicate (max_samples - 1) 0

/-- A session state whose window holds one sample and whose last emitted
hypothesis is "hello". -/
def stHello : SessionSt := ⟨[], [1], "hello"⟩

/-- A session state whose window holds one sample, nothing emitted yet. -/
def stOneSample : SessionSt := ⟨[], [1], ""⟩

lemma appendTrim_length {α : Type} (w u : List α) :
    (appendTrim w u).length = min (w.length + u.length) max_samples := by
  unfold appendTrim
  dsimp only
  split
  · rename_i h
    rw [List.length_drop]
    simp only [List.length_append] at h ⊢
    omega
  · rename_i h
    simp only [List.length_append, not_lt] at h ⊢
    omega

lemma max_samples_pos : 0 < max_samples := by
  norm_num [max_samples, CONTEXT_SEC, RATE_OUT]

lemma appendTrim_ne_nil {α : Type} (w u : List α) (h : u ≠ []) :
    appendTrim w u ≠ [] := by
  intro hn
  have hl := appendTrim_length w u
  rw [hn] at hl
  have hu : 0 < u.length := List.length_pos.mpr h
  have hm := max_samples_pos
  simp only [List.length_nil] at hl
  omega

lemma bytesToInt16_bounds (lo hi : Nat) (hlo : lo < 256) (hhi : hi < 256) :
    -32768 ≤ bytesToInt16 lo hi ∧ bytesToInt16 lo hi ≤ 32767 := by
  unfold bytesToInt16
  dsimp only
  split <;> omega



/-- Claim C1, as stated, is false: its middle clause says that whenever an
append of `k` samples would exceed the capacity, exactly the `k` oldest
samples are discarded. Starting one sample below capacity and appending
`k = 2` samples exceeds the capacity, but the trim at source line 225
keeps the last `max_samples` elements, discarding only one. -/
theorem rollingWindow_drop_k_cex :
    appendTrim wNearCap [1, 2] ≠ (wNearCap ++ [1, 2]).drop 2 := by
  intro h
  have hl := congrArg List.length h
  rw [appendTrim_length] at hl
  have h1 : wNearCap.length = max_samples - 1 := by simp [wNearCap]
  rw [List.length_drop, List.length_append, h1] at hl
  norm_num at hl
  have hm := max_samples_pos
  omega

/-- Claim C1 (amended): after every append-and-trim the window length never
exceeds `max_samples`; an append of `k` samples to a window already at
capacity discards exactly the `k` oldest samples; and in general the
window is always the most recent suffix of the appended stream. -/
theorem rollingWindow_invariant (w u : List Rat) (h : w.length = max_samples) :
    (∀ w' u' : List Rat, (appendTrim w' u').length ≤ max_samples) ∧
    appendTrim w u = (w ++ u).drop u.length ∧
    (appendTrim w u).IsSuffix (w ++ u) := by
  refine ⟨fun w' u' => ?_, ?_, ?_⟩
  · rw [appendTrim_length]
    exact Nat.min_le_right _ _
  · unfold appendTrim
    dsimp only
    split
    · rename_i hc
      have hd : (w ++ u).length - max_samples = u.length := by
        simp only [List.length_append, h]
        omega
      rw [hd]
    · rename_i hc
      have hu : u = [] := by
        rw [List.length_append, h, not_lt] at hc
        exact List.length_eq_zero.mp (by omega)
      subst hu
      simp
  · unfold appendTrim
    dsimp only
    split
    · exact List.drop_suffix _ _
    · exact List.suffix_refl _

/-- Witness for C1: instantiated at a window exactly at capacity with a
one-sample append, which drops exactly the one oldest sample. -/
theorem rollingWindow_invariant_witness :
    (∀ w' u' : List Rat, (appendTrim w' u').length ≤ max_samples) ∧
    appendTrim (List.replicate max_samples (0 : Rat)) [5] =
      (List.replicate max_samples (0 : Rat) ++ [5]).drop 1 ∧
    (appendTrim (List.replicate max_samples (0 : Rat)) [5]).IsSuffix
      (List.replicate max_samples (0 : Rat) ++ [5]) := by
  have h := rollingWindow_invariant (List.replicate max_samples (0 : Rat)) [5]
    (by simp)
  simpa using h

/-- Claim C2: the change gate emits exactly when the new hypothesis is
non-empty and differs from the last emitted text, and the four
enumerated cases evaluate as the spec lists them. -/
theorem changeGate_contract : ∀ new_text last_text : String,
    (should_emit new_text last_text = true ↔
      new_text ≠ "" ∧ new_text ≠ last_text) ∧
    should_emit "" "x" = false ∧
    should_emit "x" "x" = false ∧
    should_emit "y" "x" = true ∧
    should_emit "x" "" = true := by
  intro n l
  refine ⟨?_, by decide, by decide, by decide, by decide⟩
  simp [should_emit]

/-- Claim C9: every sample produced by `pcm16_to_f32` from a string of
bytes lies in `[-1, 1]`, since each int16 value lies in
`[-32768, 32767]` and is divided by `32768`. -/
theorem pcm16_to_f32_range :
    ∀ (bytes : List Nat), (∀ b ∈ bytes, b < 256) →
      ∀ x ∈ pcm16_to_f32 bytes, -1 ≤ x ∧ x ≤ 1
  | [], _, x, hx => by
    rw [show pcm16_to_f32 [] = [] from rfl] at hx
    simp at hx
  | [b], _, x, hx => by
    rw [show pcm16_to_f32 [b] = [] from rfl] at hx
    simp at hx
  | lo :: hi :: rest, hb, x, hx => by
    rw [show pcm16_to_f32 (lo :: hi :: rest) =
      (bytesToInt16 lo hi : Rat) / 32768 :: pcm16_to_f32 rest from rfl] at hx
    rcases List.mem_cons.mp hx with h | h
    · subst h
      have hlo : lo < 256 := hb lo (by simp)
      have hhi : hi < 256 := hb hi (by simp)
      obtain ⟨h1, h2⟩ := bytesToInt16_bounds lo hi hlo hhi
      constructor
      · rw [le_div_iff₀ (by norm_num : (0 : Rat) < 32768)]
        have h1' : ((-32768 : Int) : Rat) ≤ ((bytesToInt16 lo hi : Int) : Rat) :=
          Int.cast_le.mpr h1
        push_cast at h1'
        linarith
      · rw [div_le_one (by norm_num : (0 : Rat) < 32768)]
        have h2' : ((bytesToInt16 lo hi : Int) : Rat) ≤ ((32767 : Int) : Rat) :=
          Int.cast_le.mpr h2
        push_cast at h2'
        linarith
    · exact pcm16_to_f32_range rest (fun b hb' => hb b (by simp [hb'])) x h

/-- Witness for C9: the bytes `[0, 128]` decode to the single sample
`-32768 / 32768 = -1`, which satisfies the bounds. -/
theorem pcm16_to_f32_range_witness :
    (∀ b ∈ [0, 128], b < 256) ∧
    ∀ x ∈ pcm16_to_f32 [0, 128], -1 ≤ x ∧ x ≤ 1 :=
  ⟨by decide, pcm16_to_f32_range [0, 128] (by decide)⟩

lemma recStep_no_ctrl (r : List Rat → List Rat) (d : List Rat → Except Unit String)
    (st : SessionSt) (bytes : List Nat) (tick : Bool) (v : Nat) :
    Act.ctrl v ∉ (recStep r d st bytes tick).1 := by
  unfold recStep
  dsimp only
  split
  · split
    · simp
    · split
      · simp
      · split <;> simp
  · simp

lemma recLoop_no_ctrl (r : List Rat → List Rat) (d : List Rat → Except Unit String) :
    ∀ (evs : List RecEvent) (st : SessionSt) (v : Nat),
      Act.ctrl v ∉ (recLoop r d st evs).1
  | [], st, v => by simp [recLoop]
  | RecEvent.timeout :: es, st, v => by
    rw [recLoop]
    exact recLoop_no_ctrl r d es st v
  | RecEvent.streamEnd :: es, st, v => by simp [recLoop]
  | RecEvent.pkt bytes tick :: es, st, v => by
    rw [recLoop]
    rcases hrs : recStep r d st bytes tick with ⟨tr, o⟩
    have htr : Act.ctrl v ∉ tr := by
      have := recStep_no_ctrl r d st bytes tick v
      rw [hrs] at this
      exact this
    cases o with
    | error e => simpa using htr
    | ok st2 =>
      dsimp only
      rw [List.mem_append]
      push_neg
      exact ⟨htr, recLoop_no_ctrl r d es st2 v⟩

lemma recLoop_append_error (r : List Rat → List Rat) (d : List Rat → Except Unit String) :
    ∀ (evs : List RecEvent) (st : SessionSt) (tr : List Act),
      recLoop r d st evs = (tr, Except.error ()) →
      ∀ es, recLoop r d st (evs ++ es) = (tr, Except.error ())
  | [], st, tr, h, es => by simp [recLoop] at h
  | RecEvent.timeout :: rest, st, tr, h, es => by
    rw [recLoop] at h
    rw [List.cons_append, recLoop]
    exact recLoop_append_error r d rest st tr h es
  | RecEvent.streamEnd :: rest, st, tr, h, es => by
    rw [recLoop] at h
    simp at h
  | RecEvent.pkt bytes tick :: rest, st, tr, h, es => by
    rw [recLoop] at h
    rw [List.cons_append, recLoop]
    rcases hrs : recStep r d st bytes tick with ⟨tr0, o⟩
    rw [hrs] at h
    cases o with
    | error e => exact h
    | ok st2 =>
      dsimp only at h ⊢
      have h2 : (recLoop r d st2 rest).2 = Except.error () := by
        rcases hrl : recLoop r d st2 rest with ⟨tr1, o1⟩
        rw [hrl] at h
        cases h
        rfl
      rcases hrl : recLoop r d st2 rest with ⟨tr1, o1⟩
      rw [hrl] at h
      rw [hrl] at h2
      dsimp only at h2
      subst h2
      cases h
      rw [recLoop_append_error r d rest st2 tr1 hrl es]

lemma recLoop_append_streamEnd (r : List Rat → List Rat) (d : List Rat → Except Unit String) :
    ∀ (evs : List RecEvent) (st : SessionSt) (tr : List Act) (st1 : SessionSt),
      recLoop r d st evs = (tr, Except.ok st1) →
      ∀ es, recLoop r d st (evs ++ RecEvent.streamEnd :: es) = (tr, Except.ok st1)
  | [], st, tr, st1, h, es => by
    rw [recLoop] at h
    cases h
    rw [List.nil_append, recLoop]
  | RecEvent.timeout :: rest, st, tr, st1, h, es => by
    rw [recLoop] at h
    rw [List.cons_append, recLoop]
    exact recLoop_append_streamEnd r d rest st tr st1 h es
  | RecEvent.streamEnd :: rest, st, tr, st1, h, es => by
    rw [recLoop] at h
    cases h
    rw [List.cons_append, recLoop]
  | RecEvent.pkt bytes tick :: rest, st, tr, st1, h, es => by
    rw [recLoop] at h
    rw [List.cons_append, recLoop]
    rcases hrs : recStep r d st bytes tick with ⟨tr0, o⟩
    rw [hrs] at h
    cases o with
    | error e => exact h
    | ok st2 =>
      dsimp only at h ⊢
      rcases hrl : recLoop r d st2 rest with ⟨tr1, o1⟩
      rw [hrl] at h
      dsimp only at h
      cases h
      rw [recLoop_append_streamEnd r d rest st2 tr1 st1 hrl es]


/-- Claim C3, as stated, is false: entering Finalizing with an empty
rolling window sends only the stop control and no text message at all —
the "No speech detected." fallback lies inside the
`if buf_pcm16k.size > 0` branch (source lines 264-282). -/
theorem finalize_emptyWindow_cex :
    (finalizeActs dEmpty initSt).1 = [Act.ctrl 0] ∧
    Act.txt "No speech detected." ∉ (finalizeActs dEmpty initSt).1 := by
  constructor
  · rfl
  · rw [show (finalizeActs dEmpty initSt).1 = [Act.ctrl 0] from rfl]
    simp

/-- Claim C3 (amended): Finalizing with an empty window emits no text
message at all (only the stop control); the literal fallback
"No speech detected." is emitted exactly when the window is non-empty
and the final decode returns the empty stripped hypothesis. -/
theorem finalize_noSpeech_fallback (d : List Rat → Except Unit String)
    (st st' : SessionSt) (h : st.win = []) (h' : st'.win ≠ [])
    (hd : d st'.win = Except.ok "") :
    (finalizeActs d st).1 = [Act.ctrl 0] ∧
    Act.txt "No speech detected." ∈ (finalizeActs d st').1 := by
  constructor
  · unfold finalizeActs
    rw [if_pos (by simp [h])]
  · unfold finalizeActs
    rw [if_neg (by simpa [List.isEmpty_iff] using h')]
    rw [hd]
    simp

/-- Witness for C3 (amended): the empty-window state emits only the stop
control, and a one-sample window whose decode strips to "" emits the
fallback. -/
theorem finalize_noSpeech_fallback_witness :
    (initSt.win = [] ∧ stOneSample.win ≠ [] ∧
      dEmpty stOneSample.win = Except.ok "") ∧
    (finalizeActs dEmpty initSt).1 = [Act.ctrl 0] ∧
    Act.txt "No speech detected." ∈ (finalizeActs dEmpty stOneSample).1 :=
  ⟨⟨rfl, by simp [stOneSample], rfl⟩,
   finalize_noSpeech_fallback dEmpty initSt stOneSample rfl
     (by simp [stOneSample]) rfl⟩

/-- Claim C4, as stated, is false in its "recording off" clause: when the
decode raises during Recording, the session trace performs the resource
cleanup but never sends the `0x30/0` recording-off control, because the
exception propagates past source lines 259-284 to the outer handler. -/
theorem decodeError_no_recordingOff_cex :
    Act.ctrl 0 ∉ sessionRun rDup dErr [RecEvent.pkt [0, 1] true] ∧
    Act.detachRx ∈ sessionRun rDup dErr [RecEvent.pkt [0, 1] true] ∧
    Act.stopApp ∈ sessionRun rDup dErr [RecEvent.pkt [0, 1] true] ∧
    Act.disconnect ∈ sessionRun rDup dErr [RecEvent.pkt [0, 1] true] := by
  have hrun : sessionRun rDup dErr [RecEvent.pkt [0, 1] true] =
      startActs ++ [Act.decodeCall (rDup (pcm16_to_f32 [0, 1]))] ++ cleanupActs := rfl
  rw [hrun]
  refine ⟨?_, ?_, ?_, ?_⟩ <;> simp [startActs, cleanupActs]

/-- Claim C4 (amended): a decode error during Recording is fatal: the
loop aborts and later events are never processed (no retry), the outer
cleanup (detach audio receiver, detach print handler, stop the device
app, disconnect) still runs, but the "recording off" control `0x30/0`
is not sent on this path. -/
theorem decodeError_fatal_cleanup (r : List Rat → List Rat)
    (d : List Rat → Except Unit String) (evs : List RecEvent) (tr : List Act)
    (h : recLoop r d initSt evs = (tr, Except.error ())) :
    sessionRun r d evs = startActs ++ tr ++ cleanupActs ∧
    (∀ es, recLoop r d initSt (evs ++ es) = (tr, Except.error ())) ∧
    Act.detachRx ∈ sessionRun r d evs ∧
    Act.stopApp ∈ sessionRun r d evs ∧
    Act.disconnect ∈ sessionRun r d evs ∧
    Act.ctrl 0 ∉ sessionRun r d evs := by
  have hrun : sessionRun r d evs = startActs ++ tr ++ cleanupActs := by
    unfold sessionRun
    rw [h]
  have hno : Act.ctrl 0 ∉ tr := by
    have hh := recLoop_no_ctrl r d evs initSt 0
    rw [h] at hh
    exact hh
  refine ⟨hrun, fun es => recLoop_append_error r d evs initSt tr h es, ?_, ?_, ?_, ?_⟩
  · rw [hrun]; simp [cleanupActs]
  · rw [hrun]; simp [cleanupActs]
  · rw [hrun]; simp [cleanupActs]
  · rw [hrun]
    simp [startActs, cleanupActs, List.mem_append, hno]

/-- Witness for C4 (amended): a single chunk whose tick decode raises. -/
theorem decodeError_fatal_cleanup_witness :
    (recLoop rDup dErr initSt [RecEvent.pkt [2, 0] true] =
      ([Act.decodeCall (rDup (pcm16_to_f32 [2, 0]))], Except.error ())) ∧
    (sessionRun rDup dErr [RecEvent.pkt [2, 0] true] =
      startActs ++ [Act.decodeCall (rDup (pcm16_to_f32 [2, 0]))] ++ cleanupActs) ∧
    (∀ es, recLoop rDup dErr initSt ([RecEvent.pkt [2, 0] true] ++ es) =
      ([Act.decodeCall (rDup (pcm16_to_f32 [2, 0]))], Except.error ())) ∧
    Act.detachRx ∈ sessionRun rDup dErr [RecEvent.pkt [2, 0] true] ∧
    Act.stopApp ∈ sessionRun rDup dErr [RecEvent.pkt [2, 0] true] ∧
    Act.disconnect ∈ sessionRun rDup dErr [RecEvent.pkt [2, 0] true] ∧
    Act.ctrl 0 ∉ sessionRun rDup dErr [RecEvent.pkt [2, 0] true] :=
  ⟨rfl, (decodeError_fatal_cleanup rDup dErr [RecEvent.pkt [2, 0] true]
    [Act.decodeCall (rDup (pcm16_to_f32 [2, 0]))] rfl).1,
   (decodeError_fatal_cleanup rDup dErr [RecEvent.pkt [2, 0] true]
    [Act.decodeCall (rDup (pcm16_to_f32 [2, 0]))] rfl).2.1,
   (decodeError_fatal_cleanup rDup dErr [RecEvent.pkt [2, 0] true]
    [Act.decodeCall (rDup (pcm16_to_f32 [2, 0]))] rfl).2.2.1,
   (decodeError_fatal_cleanup rDup dErr [RecEvent.pkt [2, 0] true]
    [Act.decodeCall (rDup (pcm16_to_f32 [2, 0]))] rfl).2.2.2.1,
   (decodeError_fatal_cleanup rDup dErr [RecEvent.pkt [2, 0] true]
    [Act.decodeCall (rDup (pcm16_to_f32 [2, 0]))] rfl).2.2.2.2.1,
   (decodeError_fatal_cleanup rDup dErr [RecEvent.pkt [2, 0] true]
    [Act.decodeCall (rDup (pcm16_to_f32 [2, 0]))] rfl).2.2.2.2.2⟩

/-- Claim C5, as stated, is false: in the Finalizing trace the stop
control `0x30/0` is the first action (source line 261), sent before the
"processing" status and the final emission — not after the final
message, which is the last action. -/
theorem finalize_order_cex :
    (finalizeActs dHello stHello).1 =
      [Act.ctrl 0, Act.txt "Processing final transcription...",
       Act.decodeCall stHello.win, Act.txt "hello"] ∧
    (finalizeActs dHello stHello).1.getLast? ≠ some (Act.ctrl 0) := by
  constructor
  · rfl
  · rw [show (finalizeActs dHello stHello).1 =
      [Act.ctrl 0, Act.txt "Processing final transcription...",
       Act.decodeCall stHello.win, Act.txt "hello"] from rfl]
    simp

/-- Claim C5 (amended): in Finalizing the outbound order is: the stop
control `0x30/0` first, then the "processing" status downstream, then
the final decode and the emission of its (non-empty) result. -/
theorem finalize_order (d : List Rat → Except Unit String) (st : SessionSt)
    (t : String) (h1 : st.win ≠ []) (h2 : d st.win = Except.ok t)
    (h3 : t ≠ "") :
    (finalizeActs d st).1 =
      [Act.ctrl 0, Act.txt "Processing final transcription...",
       Act.decodeCall st.win, Act.txt t] := by
  unfold finalizeActs
  rw [if_neg (by simpa [List.isEmpty_iff] using h1)]
  rw [h2]
  simp [h3]

/-- Witness for C5 (amended): a one-sample window whose final decode
returns "hello". -/
theorem finalize_order_witness :
    (stHello.win ≠ [] ∧ dHello stHello.win = Except.ok "hello" ∧
      "hello" ≠ "") ∧
    (finalizeActs dHello stHello).1 =
      [Act.ctrl 0, Act.txt "Processing final transcription...",
       Act.decodeCall stHello.win, Act.txt "hello"] :=
  ⟨⟨by simp [stHello], rfl, by decide⟩,
   finalize_order dHello stHello "hello" (by simp [stHello]) rfl (by decide)⟩

/-- Claim C6, as stated, is false: at a tick whose raw buffer converts to
nothing (an empty chunk with an empty raw buffer), the step skips the
decode entirely (`continue` at source lines 218-219) even though the
rolling window is non-empty, so a non-empty window at a tick does not
always trigger a decode. -/
theorem decode_guard_cex :
    stOneSample.win ≠ [] ∧
    recStep rDup dHello stOneSample [] true = ([], Except.ok stOneSample) := by
  constructor
  · simp [stOneSample]
  · rfl

/-- Claim C6 (amended): at a tick the decode is invoked iff the newly
converted raw buffer is non-empty — the guard at source line 218 tests
the converted chunk, not the window. Since the chunk is appended before
decoding, every decode does see a non-empty window; but a non-empty
window alone does not trigger a decode when the tick's raw buffer is
empty. (Hypothesis `hr`: the resampler of a non-empty block is
non-empty, which holds for 8 kHz → 16 kHz resampling.) -/
theorem decode_guard (r : List Rat → List Rat)
    (d : List Rat → Except Unit String)
    (hr : ∀ l : List Rat, l ≠ [] → r l ≠ [])
    (st : SessionSt) (bytes : List Nat) :
    ((∃ w, Act.decodeCall w ∈ (recStep r d st bytes true).1) ↔
      pcm16_to_f32 (st.buf8 ++ bytes) ≠ []) ∧
    (∀ w, Act.decodeCall w ∈ (recStep r d st bytes true).1 → w ≠ []) := by
  constructor
  · constructor
    · rintro ⟨w, hw⟩ hpc
      unfold recStep at hw
      dsimp only at hw
      rw [if_pos rfl, if_pos (by simp [hpc])] at hw
      simp at hw
    · intro hpc
      refine ⟨appendTrim st.win (r (pcm16_to_f32 (st.buf8 ++ bytes))), ?_⟩
      unfold recStep
      dsimp only
      rw [if_pos rfl, if_neg (by simpa [List.isEmpty_iff] using hpc)]
      rcases hd : d (appendTrim st.win (r (pcm16_to_f32 (st.buf8 ++ bytes)))) with e | t
      · simp
      · dsimp only
        split <;> simp
  · intro w hmem
    unfold recStep at hmem
    dsimp only at hmem
    rw [if_pos rfl] at hmem
    by_cases hp : (pcm16_to_f32 (st.buf8 ++ bytes)).isEmpty
    · rw [if_pos hp] at hmem
      simp at hmem
    · rw [if_neg hp] at hmem
      have hpc : pcm16_to_f32 (st.buf8 ++ bytes) ≠ [] := by
        simpa [List.isEmpty_iff] using hp
      have hwne : appendTrim st.win (r (pcm16_to_f32 (st.buf8 ++ bytes))) ≠ [] :=
        appendTrim_ne_nil _ _ (hr _ hpc)
      rcases hd : d (appendTrim st.win (r (pcm16_to_f32 (st.buf8 ++ bytes)))) with e | t
      · rw [hd] at hmem
        dsimp only at hmem
        simp only [List.mem_singleton, Act.decodeCall.injEq] at hmem
        subst hmem
        exact hwne
      · rw [hd] at hmem
        dsimp only at hmem
        split at hmem <;>
          simp only [List.mem_cons, List.mem_singleton, Act.decodeCall.injEq,
            List.not_mem_nil, or_false, reduceCtorEq] at hmem <;>
          (try subst hmem) <;> exact hwne

/-- Witness for C6 (amended): the doubling resampler and a two-byte
chunk arriving at a tick. -/
theorem decode_guard_witness :
    (∀ l : List Rat, l ≠ [] → rDup l ≠ []) ∧
    (((∃ w, Act.decodeCall w ∈ (recStep rDup dHello initSt [0, 1] true).1) ↔
      pcm16_to_f32 (initSt.buf8 ++ [0, 1]) ≠ []) ∧
    (∀ w, Act.decodeCall w ∈ (recStep rDup dHello initSt [0, 1] true).1 → w ≠ [])) :=
  ⟨fun _ hl h => hl (List.append_eq_nil.mp h).1,
   decode_guard rDup dHello (fun _ hl h => hl (List.append_eq_nil.mp h).1)
     initSt [0, 1]⟩

/-- Claim C7: at every tick the raw byte buffer of the resulting state is
empty regardless of whether a decode or an emission occurred — source
line 217 clears it before the decode guard. -/
theorem rawBuffer_cleared (r : List Rat → List Rat)
    (d : List Rat → Except Unit String) (st : SessionSt) (bytes : List Nat)
    (st2 : SessionSt) (h : (recStep r d st bytes true).2 = Except.ok st2) :
    st2.buf8 = [] := by
  unfold recStep at h
  dsimp only at h
  rw [if_pos rfl] at h
  split at h
  · simp only [Except.ok.injEq] at h
    subst h
    rfl
  · split at h
    · simp at h
    · split at h <;>
        (simp only [Except.ok.injEq] at h; subst h; rfl)

/-- Witness for C7: a tick that converts, decodes and emits, after which
the raw buffer is empty. -/
theorem rawBuffer_cleared_witness :
    ((recStep rDup dHello initSt [0, 1] true).2 =
      Except.ok (SessionSt.mk []
        (appendTrim initSt.win (rDup (pcm16_to_f32 [0, 1]))) "hello")) ∧
    (SessionSt.mk [] (appendTrim initSt.win (rDup (pcm16_to_f32 [0, 1])))
      "hello").buf8 = [] :=
  ⟨rfl, rawBuffer_cleared rDup dHello initSt [0, 1] _ rfl⟩

/-- Claim C8: an end-of-stream marker terminates the Recording loop early
and without error — the rest of the schedule is ignored — and the
session proceeds normally to the Finalizing phase with the state
accumulated so far. -/
theorem streamEnd_normal_finalize (r : List Rat → List Rat)
    (d : List Rat → Except Unit String) (evs es : List RecEvent)
    (tr : List Act) (st1 : SessionSt)
    (h : recLoop r d initSt evs = (tr, Except.ok st1)) :
    recLoop r d initSt (evs ++ RecEvent.streamEnd :: es) = (tr, Except.ok st1) ∧
    sessionRun r d (evs ++ RecEvent.streamEnd :: es) =
      startActs ++ tr ++ finalizePart d st1 := by
  have h2 := recLoop_append_streamEnd r d evs initSt tr st1 h es
  refine ⟨h2, ?_⟩
  unfold sessionRun
  rw [h2]

/-- Witness for C8: one non-tick chunk followed by end-of-stream. -/
theorem streamEnd_normal_finalize_witness :
    (recLoop rDup dHello initSt [RecEvent.pkt [0, 1] false] =
      ([], Except.ok (SessionSt.mk [0, 1] [] ""))) ∧
    recLoop rDup dHello initSt
      ([RecEvent.pkt [0, 1] false] ++ RecEvent.streamEnd :: []) =
      ([], Except.ok (SessionSt.mk [0, 1] [] "")) ∧
    sessionRun rDup dHello
      ([RecEvent.pkt [0, 1] false] ++ RecEvent.streamEnd :: []) =
      startActs ++ [] ++ finalizePart dHello (SessionSt.mk [0, 1] [] "") :=
  ⟨rfl, streamEnd_normal_finalize rDup dHello [RecEvent.pkt [0, 1] false] []
    [] (SessionSt.mk [0, 1] [] "") rfl⟩

/-- Claim C10: the final emission bypasses the change gate: a non-empty
final hypothesis is emitted even when identical to the last emitted
partial hypothesis (source line 278 tests only emptiness), although the
gate itself would suppress exactly that re-emission. -/
theorem final_emit_bypasses_gate (d : List Rat → Except Unit String)
    (st : SessionSt) (t : String) (h1 : st.win ≠ [])
    (h2 : d st.win = Except.ok t) (h3 : t ≠ "")
    (h4 : t = st.last_terminal) :
    Act.txt t ∈ (finalizeActs d st).1 ∧
    should_emit t st.last_terminal = false := by
  constructor
  · unfold finalizeActs
    rw [if_neg (by simpa [List.isEmpty_iff] using h1)]
    rw [h2]
    simp [h3]
  · rw [← h4]
    simp [should_emit]

/-- Witness for C10: final decode returns "hello", which equals the last
emitted text, and it is still emitted. -/
theorem final_emit_bypasses_gate_witness :
    (stHello.win ≠ [] ∧ dHello stHello.win = Except.ok "hello" ∧
      "hello" ≠ "" ∧ "hello" = stHello.last_terminal) ∧
    Act.txt "hello" ∈ (finalizeActs dHello stHello).1 ∧
    should_emit "hello" stHello.last_terminal = false :=
  ⟨⟨by simp [stHello], rfl, by decide, rfl⟩,
   final_emit_bypasses_gate dHello stHello "hello" (by simp [stHello]) rfl
     (by decide) rfl⟩

end FrameTranscription
